import Mathlib

/-!
Shallow embedding of the emotion-classification notebook
(`enhanced_nlp_dataset-2.ipynb`): a linear pipeline that loads a CSV,
cleans the text column, extracts TF-IDF features, trains a Naive Bayes
and a linear-kernel SVM classifier on an 80/20 split and prints accuracy
and weighted F1 for both models.

Python/pandas/scikit-learn values are modelled as follows: a CSV cell is
either a string or NaN (`Value`), a data frame is a header plus rows
(`CSV`), library exceptions are an error type (`PyError`) threaded with
`Except`, and the console is a list of printed lines, each line being the
argument list of one `print` call (`PArg`).
-/

namespace NLP

/-- A cell of the loaded data frame: pandas stores a parsed CSV cell either
as a string or as the float NaN (for a missing value). -/
inductive Value where
  | str (s : String)
  | nan
  deriving DecidableEq

/-- `true` exactly on string-valued cells. -/
def Value.isStr : Value → Bool
  | .str _ => true
  | .nan => false

/-- The exceptions the notebook can surface; none are caught. -/
inductive PyError where
  | fileNotFoundError
  | keyError (k : String)
  | attributeError
  | typeError
  | valueError (msg : String)
  deriving DecidableEq

/-- A parsed CSV file: the header row and the data rows. -/
structure CSV where
  header : List String
  rows : List (List Value)
  deriving DecidableEq

/-- `pd.read_csv('nlp_dataset.csv')`: the file system is `Option CSV`;
a missing file raises `FileNotFoundError`. -/
def read_csv (fs : Option CSV) : Except PyError CSV :=
  match fs with
  | none => Except.error PyError.fileNotFoundError
  | some csv => Except.ok csv

/-- The values of column `name`, one per row; a row shorter than the header
yields NaN in that column, as pandas pads short CSV rows with NaN. Empty
when the column is absent. -/
def colValues (csv : CSV) (name : String) : List Value :=
  if csv.header.contains name then
    csv.rows.map (fun r => r.getD (csv.header.findIdx (fun h => h == name)) Value.nan)
  else []

/-- `dataset[name]`: column selection; an absent column raises `KeyError`. -/
def getCol (csv : CSV) (name : String) : Except PyError (List Value) :=
  if csv.header.contains name then Except.ok (colValues csv name)
  else Except.error (PyError.keyError name)

/-- The 32 characters of Python's `string.punctuation`
(ASCII 33-47, 58-64, 91-96, 123-126). -/
def punctuationChars : List Char :=
  ((List.range 128).filter (fun n =>
    decide ((33 ≤ n ∧ n ≤ 47) ∨ (58 ≤ n ∧ n ≤ 64) ∨ (91 ≤ n ∧ n ≤ 96) ∨
      (123 ≤ n ∧ n ≤ 126)))).map Char.ofNat

/-- `text.lower()` character by character; `Char.toLower` lowercases exactly
the basic latin letters, as CPython does on ASCII text. -/
def pyLower (l : List Char) : List Char := l.map Char.toLower

/-- `text.translate(str.maketrans('', '', string.punctuation))`: delete every
punctuation character. -/
def removePunctuation (l : List Char) : List Char :=
  l.filter (fun c => !(punctuationChars.contains c))

/-- The whitespace characters `str.split()` splits on in ASCII text:
space, tab, newline, carriage return, vertical tab and form feed. -/
def isSpaceChar (c : Char) : Bool :=
  c == ' ' || c == '\t' || c == '\n' || c == '\r' ||
    c == Char.ofNat 11 || c == Char.ofNat 12

/-- Accumulator pass behind `pySplit`: `cur` holds the reversed current word. -/
def pySplitAux : List Char → List Char → List (List Char)
  | [], cur => if cur = [] then [] else [cur.reverse]
  | c :: rest, cur =>
    if isSpaceChar c then
      if cur = [] then pySplitAux rest [] else cur.reverse :: pySplitAux rest []
    else pySplitAux rest (c :: cur)

/-- `text.split()`: split on runs of whitespace, discarding empty pieces. -/
def pySplit (l : List Char) : List (List Char) := pySplitAux l []

/-- `' '.join(tokens)`: concatenate the tokens with single spaces. -/
def joinSpaces : List (List Char) → List Char
  | [] => []
  | [w] => w
  | w :: w2 :: ws => w ++ ' ' :: joinSpaces (w2 :: ws)

/-- scikit-learn's frozen `ENGLISH_STOP_WORDS` list
(`sklearn.feature_extraction.text`). -/
def ENGLISH_STOP_WORDS : List String :=
  [ "a", "about", "above", "across", "after", "afterwards", "again", "against",
    "all", "almost", "alone", "along", "already", "also", "although", "always",
    "am", "among", "amongst", "amoungst", "amount", "an", "and", "another",
    "any", "anyhow", "anyone", "anything", "anyway", "anywhere", "are",
    "around", "as", "at", "back", "be", "became", "because", "become",
    "becomes", "becoming", "been", "before", "beforehand", "behind", "being",
    "below", "beside", "besides", "between", "beyond", "bill", "both",
    "bottom", "but", "by", "call", "can", "cannot", "cant", "co", "con",
    "could", "couldnt", "cry", "de", "describe", "detail", "do", "done",
    "down", "due", "during", "each", "eg", "eight", "either", "eleven",
    "else", "elsewhere", "empty", "enough", "etc", "even", "ever", "every",
    "everyone", "everything", "everywhere", "except", "few", "fifteen",
    "fifty", "fill", "find", "fire", "first", "five", "for", "former",
    "formerly", "forty", "found", "four", "from", "front", "full", "further",
    "get", "give", "go", "had", "has", "hasnt", "have", "he", "hence", "her",
    "here", "hereafter", "hereby", "herein", "hereupon", "hers", "herself",
    "him", "himself", "his", "how", "however", "hundred", "i", "ie", "if",
    "in", "inc", "indeed", "interest", "into", "is", "it", "its", "itself",
    "keep", "last", "latter", "latterly", "least", "less", "ltd", "made",
    "many", "may", "me", "meanwhile", "might", "mill", "mine", "more",
    "moreover", "most", "mostly", "move", "much", "must", "my", "myself",
    "name", "namely", "neither", "never", "nevertheless", "next", "nine",
    "no", "nobody", "none", "noone", "nor", "not", "nothing", "now",
    "nowhere", "of", "off", "often", "on", "once", "one", "only", "onto",
    "or", "other", "others", "otherwise", "our", "ours", "ourselves", "out",
    "over", "own", "part", "per", "perhaps", "please", "put", "rather", "re",
    "same", "see", "seem", "seemed", "seeming", "seems", "serious", "several",
    "she", "should", "show", "side", "since", "sincere", "six", "sixty",
    "so", "some", "somehow", "someone", "something", "sometime", "sometimes",
    "somewhere", "still", "such", "system", "take", "ten", "than", "that",
    "the", "their", "them", "themselves", "then", "thence", "there",
    "thereafter", "thereby", "therefore", "therein", "thereupon", "these",
    "they", "thick", "thin", "third", "this", "those", "though", "three",
    "through", "throughout", "thru", "thus", "to", "together", "too", "top",
    "toward", "towards", "twelve", "twenty", "two", "un", "under", "until",
    "up", "upon", "us", "very", "via", "was", "we", "well", "were", "what",
    "whatever", "when", "whence", "whenever", "where", "whereafter",
    "whereas", "whereby", "wherein", "whereupon", "wherever", "whether",
    "which", "while", "whither", "who", "whoever", "whole", "whom", "whose",
    "why", "will", "with", "within", "without", "would", "yet", "you",
    "your", "yours", "yourself", "yourselves" ]

/-- Membership of a token in the stop-word list. -/
def isStopWord (w : List Char) : Bool :=
  ENGLISH_STOP_WORDS.contains (String.mk w)

/-- The token list of `preprocess_text`: lowercase, strip punctuation,
split on whitespace, drop stop words. -/
def cleanTokens (s : String) : List (List Char) :=
  (pySplit (removePunctuation (pyLower s.data))).filter (fun w => !(isStopWord w))

/-- The body of `preprocess_text` on a string:
`' '.join([w for w in text.lower().translate(...).split() if w not in ENGLISH_STOP_WORDS])`. -/
def preprocessString (s : String) : String :=
  String.mk (joinSpaces (cleanTokens s))

/-- `preprocess_text` applied to a cell: calling `.lower()` on a non-string
cell (NaN) raises `AttributeError`. -/
def preprocess_text : Value → Except PyError String
  | .str s => Except.ok (preprocessString s)
  | .nan => Except.error PyError.attributeError

/-- `Series.apply(f)`: apply `f` to each element, aborting at the first
raised exception. -/
def mapE (f : α → Except PyError β) : List α → Except PyError (List β)
  | [] => Except.ok []
  | a :: as =>
    match f a with
    | .error e => Except.error e
    | .ok b =>
      match mapE f as with
      | .error e => Except.error e
      | .ok bs => Except.ok (b :: bs)

/-- A character matched by `\w` in the default `token_pattern` (ASCII part). -/
def isWordChar (c : Char) : Bool := c.isAlphanum || c == '_'

/-- Maximal runs of word characters; `cur` holds the reversed current run. -/
def wordRunsAux : List Char → List Char → List (List Char)
  | [], cur => if cur = [] then [] else [cur.reverse]
  | c :: rest, cur =>
    if isWordChar c then wordRunsAux rest (c :: cur)
    else if cur = [] then wordRunsAux rest [] else cur.reverse :: wordRunsAux rest []

/-- The tokens `TfidfVectorizer` extracts from one document: lowercase,
then every maximal run of at least two word characters
(`token_pattern` is `\b\w\w+\b`). -/
def sklearnTokens (s : String) : List String :=
  ((wordRunsAux (pyLower s.data) []).filter (fun w => decide (2 ≤ w.length))).map String.mk

/-- All token occurrences of the corpus, in document order. -/
def allTerms (docs : List String) : List String := (docs.map sklearnTokens).flatten

/-- The number of occurrences of term `t` in the corpus. -/
def termCount (docs : List String) (t : String) : Nat :=
  (allTerms docs).countP (fun w => decide (w = t))

/-- Insertion into a list sorted by the boolean relation `le`. -/
def insertLe (le : α → α → Bool) (x : α) : List α → List α
  | [] => [x]
  | y :: ys => if le x y then x :: y :: ys else y :: insertLe le x ys

/-- Insertion sort by the boolean relation `le`. -/
def sortLe (le : α → α → Bool) : List α → List α
  | [] => []
  | x :: xs => insertLe le x (sortLe le xs)

/-- Lexicographic strict order on character lists by code point, as Python
compares strings. -/
def charsLt : List Char → List Char → Bool
  | [], [] => false
  | [], _ :: _ => true
  | _ :: _, [] => false
  | a :: as, b :: bs =>
    if a.toNat < b.toNat then true
    else if b.toNat < a.toNat then false
    else charsLt as bs

/-- Alphabetical order on terms. -/
def strLeB (a b : String) : Bool := a == b || charsLt a.data b.data

/-- `max_features` order: corpus frequency descending, ties alphabetical. -/
def vocabLe (docs : List String) (a b : String) : Bool :=
  decide (termCount docs b < termCount docs a) ||
    (decide (termCount docs a = termCount docs b) && strLeB a b)

/-- The fitted vocabulary of `TfidfVectorizer(max_features=500)`: the 500
most frequent distinct terms of the corpus, listed in the alphabetical
order that fixes the feature columns. -/
def buildVocab (docs : List String) : List String :=
  sortLe strLeB ((sortLe (vocabLe docs) (allTerms docs).dedup).take 500)

/-- The feature row of one document over the vocabulary. Library model:
the entry for a term is its raw count in the document; the float tf-idf
weighting (idf scaling and l2 normalisation) rescales entries without
changing the matrix shape, the vocabulary or determinism, which is all
the theorems below use. -/
def countsRow (vocab : List String) (doc : String) : List Nat :=
  vocab.map (fun t => (sklearnTokens doc).countP (fun w => decide (w = t)))

/-- `tfidf_vectorizer.fit_transform(docs).toarray()`: one feature row per
document; a corpus with no extractable term raises the scikit-learn
`empty vocabulary` `ValueError`. -/
def fit_transform (docs : List String) : Except PyError (List (List Nat)) :=
  let vocab := buildVocab docs
  if vocab = [] then Except.error (PyError.valueError "empty vocabulary")
  else Except.ok (docs.map (countsRow vocab))

/-- The four return values of `train_test_split`. -/
structure SplitResult where
  X_train : List (List Nat)
  X_test : List (List Nat)
  y_train : List Value
  y_test : List Value
  deriving DecidableEq

/-- A fixed linear-congruential mixing function standing in for numpy's
seeded pseudo-random stream; any pure function of `(seed, i)` models the
shuffle equally well for the proved properties. -/
def mix (seed i : Nat) : Nat :=
  (6364136223846793005 * (seed + i) + 1442695040888963407) % (2 ^ 64)

/-- Lexicographic order on `(key, index)` pairs. -/
def pairLe (a b : Nat × Nat) : Bool :=
  decide (a.1 < b.1) || (decide (a.1 = b.1) && decide (a.2 ≤ b.2))

/-- The seeded permutation of `0, ..., n-1` used by the shuffle: sort the
indices by their mixed keys. -/
def permute (seed n : Nat) : List Nat :=
  (sortLe pairLe ((List.range n).map (fun i => (mix seed i, i)))).map Prod.snd

/-- `⌈q * n⌉` for a nonnegative rational `q`, computed by integer
arithmetic on the reduced fraction. -/
def ceilMul (q : ℚ) (n : Nat) : Nat :=
  (q.num.toNat * n + (q.den - 1)) / q.den

/-- `train_test_split(X, y, test_size=testSize, random_state=randomState)`.
`env` is the ambient numpy seed that would be drawn when
`random_state=None`; a fixed `random_state` overrides it. The test-set
size is `ceil(testSize * n)`; an empty train split raises `ValueError`,
as does inconsistent `X`/`y` lengths. -/
def train_test_split (X : List (List Nat)) (y : List Value) (testSize : ℚ)
    (randomState : Option Nat) (env : Nat) : Except PyError SplitResult :=
  if X.length ≠ y.length then
    Except.error (PyError.valueError "inconsistent numbers of samples")
  else
    let n := X.length
    let nTest := ceilMul testSize n
    if n - nTest = 0 then
      Except.error (PyError.valueError "the resulting train set will be empty")
    else
      let perm := permute (randomState.getD env) n
      let testIdx := perm.take nTest
      let trainIdx := perm.drop nTest
      Except.ok ⟨trainIdx.map (fun i => X.getD i []), testIdx.map (fun i => X.getD i []),
                 trainIdx.map (fun i => y.getD i Value.nan),
                 testIdx.map (fun i => y.getD i Value.nan)⟩

/-- Order on labels: NaN first, strings alphabetically. -/
def valueLe (a b : Value) : Bool :=
  match a, b with
  | .nan, _ => true
  | .str _, .nan => false
  | .str s, .str t => strLeB s t

/-- The number of occurrences of label `c` in `l`. -/
def countVal (l : List Value) (c : Value) : Nat :=
  l.countP (fun v => decide (v = c))

/-- A fitted `MultinomialNB`: the sorted class list and the training data. -/
structure NBModel where
  classes : List Value
  X_train : List (List Nat)
  y_train : List Value
  nFeatures : Nat
  deriving DecidableEq

/-- Whether a label vector mixes string labels with the float NaN;
`np.unique` raises `TypeError` when asked to sort such a vector. -/
def mixedLabels (ytr : List Value) : Bool :=
  ytr.contains Value.nan && ytr.any Value.isStr

/-- `MultinomialNB().fit(X_train, y_train)`: fitting an empty training set
raises `ValueError`, and a label vector mixing strings with the float NaN
raises `TypeError` when `np.unique` sorts the labels. -/
def nbFit (Xtr : List (List Nat)) (ytr : List Value) : Except PyError NBModel :=
  if Xtr = [] then Except.error (PyError.valueError "0 samples")
  else if mixedLabels ytr then Except.error PyError.typeError
  else Except.ok ⟨sortLe valueLe ytr.dedup, Xtr, ytr, (Xtr.headD []).length⟩

/-- The training rows labelled `c`. -/
def classRows (m : NBModel) (c : Value) : List (List Nat) :=
  ((m.X_train.zip m.y_train).filter (fun p => decide (p.2 = c))).map Prod.fst

/-- Total count of feature `j` over the training rows of class `c`. -/
def featureCount (m : NBModel) (c : Value) (j : Nat) : Nat :=
  ((classRows m c).map (fun r => r.getD j 0)).sum

/-- Total feature count over the training rows of class `c`. -/
def classTotal (m : NBModel) (c : Value) : Nat :=
  ((classRows m c).map (fun r => r.sum)).sum

/-- The multinomial Naive Bayes class score with Laplace smoothing
`alpha=1` and empirical prior: `P(c) * prod_j P(j|c)^x_j`, computed
exactly over the rationals; `argmax` of this is `argmax` of the log-space
score scikit-learn computes. -/
def nbScore (m : NBModel) (c : Value) (x : List Nat) : ℚ :=
  ((countVal m.y_train c : ℚ) / (m.y_train.length : ℚ)) *
    ((x.enum.map (fun p =>
      (((featureCount m c p.1 : ℚ) + 1) / ((classTotal m c : ℚ) + (m.nFeatures : ℚ))) ^ p.2)).prod)

/-- First maximiser of `score`, in list order, matching `np.argmax`. -/
def argmaxQ (score : α → ℚ) : List α → Option α
  | [] => none
  | c :: cs => some (cs.foldl (fun best d => if score best < score d then d else best) c)

/-- `nb_model.predict` on one row. -/
def nbPredictOne (m : NBModel) (x : List Nat) : Value :=
  (argmaxQ (fun c => nbScore m c x) m.classes).getD Value.nan

/-- `nb_model.predict(X_test)`: one label per test row. -/
def nbPredict (m : NBModel) (Xte : List (List Nat)) : List Value :=
  Xte.map (nbPredictOne m)

/-- A fitted `SVC(kernel='linear')`. Library model: the trained decision
function solves a float quadratic program that is not exactly
representable; the model keeps the training data and predicts per row
below. -/
structure SVMModel where
  X_train : List (List Nat)
  y_train : List Value
  deriving DecidableEq

/-- `SVC(kernel='linear').fit(X_train, y_train)`: fitting an empty training
set raises `ValueError`, a label vector mixing strings with the float NaN
raises `TypeError` when `np.unique` sorts the labels, and fewer than two
distinct classes raises `ValueError` ("The number of classes has to be
greater than one"). -/
def svmFit (Xtr : List (List Nat)) (ytr : List Value) : Except PyError SVMModel :=
  if Xtr = [] then Except.error (PyError.valueError "0 samples")
  else if mixedLabels ytr then Except.error PyError.typeError
  else if ytr.dedup.length < 2 then
    Except.error (PyError.valueError "The number of classes has to be greater than one")
  else Except.ok ⟨Xtr, ytr⟩

/-- Squared euclidean distance between two feature rows. -/
def sqDist (a b : List Nat) : Int :=
  ((a.zip b).map (fun p => ((p.1 : Int) - (p.2 : Int)) ^ 2)).sum

/-- `svm_model.predict` on one row. Library model: the label of the nearest
training row (first on ties); a deterministic per-row rule standing in for
the float SVC decision function, which no claim inspects. -/
def svmPredictOne (m : SVMModel) (x : List Nat) : Value :=
  match m.X_train.zip m.y_train with
  | [] => Value.nan
  | p :: ps => (ps.foldl (fun best q => if sqDist q.1 x < sqDist best.1 x then q else best) p).2

/-- `svm_model.predict(X_test)`: one label per test row. -/
def svmPredict (m : SVMModel) (Xte : List (List Nat)) : List Value :=
  Xte.map (svmPredictOne m)

/-- `accuracy_score(y_true, y_pred)`: the fraction of positions where the
prediction equals the true label. -/
def accuracy_score (yt yp : List Value) : ℚ :=
  ((yt.zip yp).countP (fun p => decide (p.1 = p.2)) : ℚ) / (yt.length : ℚ)

/-- True positives of label `l`. -/
def tpCount (yt yp : List Value) (l : Value) : Nat :=
  (yt.zip yp).countP (fun p => decide (p.1 = l) && decide (p.2 = l))

/-- False positives of label `l`. -/
def fpCount (yt yp : List Value) (l : Value) : Nat :=
  (yt.zip yp).countP (fun p => decide (p.1 ≠ l) && decide (p.2 = l))

/-- False negatives of label `l`. -/
def fnCount (yt yp : List Value) (l : Value) : Nat :=
  (yt.zip yp).countP (fun p => decide (p.1 = l) && decide (p.2 ≠ l))

/-- Per-label F1: `2 tp / (2 tp + fp + fn)`, zero when the denominator is. -/
def f1Class (yt yp : List Value) (l : Value) : ℚ :=
  let d : Nat := 2 * tpCount yt yp l + fpCount yt yp l + fnCount yt yp l
  if d = 0 then 0 else (2 * tpCount yt yp l : ℚ) / (d : ℚ)

/-- `f1_score(y_true, y_pred, average='weighted')`: the support-weighted
mean of per-label F1 over the sorted distinct labels of both vectors. -/
def f1_score_weighted (yt yp : List Value) : ℚ :=
  (((sortLe valueLe (yt ++ yp).dedup).map
    (fun l => (countVal yt l : ℚ) * f1Class yt yp l)).sum) / (yt.length : ℚ)

/-- One argument of a `print` call: a string literal or a numeric value. -/
inductive PArg where
  | pstr (s : String)
  | pnum (q : ℚ)
  deriving DecidableEq

/-- `true` on numeric print arguments. -/
def PArg.isNum : PArg → Bool
  | .pstr _ => false
  | .pnum _ => true

/-- `print("Naive Bayes - Accuracy:", nb_accuracy, "F1-Score:", nb_f1)`. -/
def nbLine (acc f1 : ℚ) : List PArg :=
  [PArg.pstr "Naive Bayes - Accuracy:", PArg.pnum acc, PArg.pstr "F1-Score:", PArg.pnum f1]

/-- `print("SVM - Accuracy:", svm_accuracy, "F1-Score:", svm_f1)`. -/
def svmLine (acc f1 : ℚ) : List PArg :=
  [PArg.pstr "SVM - Accuracy:", PArg.pnum acc, PArg.pstr "F1-Score:", PArg.pnum f1]

/-- The pipeline steps, in the notebook's cell order. -/
inductive Step where
  | load
  | clean
  | vectorize
  | split
  | fitNB
  | fitSVM
  | scoreNB
  | scoreSVM
  deriving DecidableEq

/-- The four pipeline phases named by the specification. -/
inductive Phase where
  | clean
  | vectorize
  | fit
  | score
  deriving DecidableEq

/-- Which specification phase a step belongs to: the split and both fits
make up the model-fitting cell; loading precedes the four phases. -/
def phaseOf : Step → Option Phase
  | .load => none
  | .clean => some Phase.clean
  | .vectorize => some Phase.vectorize
  | .split => some Phase.fit
  | .fitNB => some Phase.fit
  | .fitSVM => some Phase.fit
  | .scoreNB => some Phase.score
  | .scoreSVM => some Phase.score

/-- The intermediate artifacts of a completed run. -/
structure Inter where
  ds : CSV
  processed : List String
  X : List (List Nat)
  y : List Value
  Xtr : List (List Nat)
  Xte : List (List Nat)
  ytr : List Value
  yte : List Value
  nbPred : List Value
  svmPred : List Value
  deriving DecidableEq

/-- The observable outcome of executing the notebook: the steps that ran,
the printed lines, the uncaught exception if any, and the intermediate
artifacts of a completed run. -/
structure RunResult where
  trace : List Step
  output : List (List PArg)
  err : Option PyError
  inter : Option Inter
  deriving DecidableEq

/-- The trace of a run on which every step completed. -/
def fullTrace : List Step :=
  [Step.load, Step.clean, Step.vectorize, Step.split,
   Step.fitNB, Step.fitSVM, Step.scoreNB, Step.scoreSVM]

/-- The result of a run on which every step completed: score both models
on the test split and print the two result lines. -/
def successRun (csv : CSV) (processed : List String) (X : List (List Nat))
    (y : List Value) (sp : SplitResult) (nb : NBModel) (svm : SVMModel) : RunResult :=
  let nbP := nbPredict nb sp.X_test
  let svmP := svmPredict svm sp.X_test
  { trace := fullTrace
    output := [nbLine (accuracy_score sp.y_test nbP) (f1_score_weighted sp.y_test nbP),
               svmLine (accuracy_score sp.y_test svmP) (f1_score_weighted sp.y_test svmP)]
    err := none
    inter := some ⟨csv, processed, X, y, sp.X_train, sp.X_test, sp.y_train, sp.y_test, nbP, svmP⟩ }

/-- The whole notebook, top to bottom: read the CSV, clean the comment
column, vectorize, extract labels, split 80/20 with `random_state=42`,
fit Naive Bayes then the SVM, and score both. An exception aborts the run
at the step that raised it, leaving the console empty. -/
def run (fs : Option CSV) (env : Nat) : RunResult :=
  match read_csv fs with
  | .error e => { trace := [Step.load], output := [], err := some e, inter := none }
  | .ok csv =>
    match getCol csv "Comment" with
    | .error e => { trace := [Step.load, Step.clean], output := [], err := some e, inter := none }
    | .ok col =>
      match mapE preprocess_text col with
      | .error e =>
        { trace := [Step.load, Step.clean], output := [], err := some e, inter := none }
      | .ok processed =>
        match fit_transform processed with
        | .error e =>
          { trace := [Step.load, Step.clean, Step.vectorize], output := [],
            err := some e, inter := none }
        | .ok X =>
          match getCol csv "Emotion" with
          | .error e =>
            { trace := [Step.load, Step.clean, Step.vectorize], output := [],
              err := some e, inter := none }
          | .ok y =>
            match train_test_split X y (mkRat 1 5) (some 42) env with
            | .error e =>
              { trace := [Step.load, Step.clean, Step.vectorize, Step.split], output := [],
                err := some e, inter := none }
            | .ok sp =>
              match nbFit sp.X_train sp.y_train with
              | .error e =>
                { trace := [Step.load, Step.clean, Step.vectorize, Step.split, Step.fitNB],
                  output := [], err := some e, inter := none }
              | .ok nb =>
                match svmFit sp.X_train sp.y_train with
                | .error e =>
                  { trace := [Step.load, Step.clean, Step.vectorize, Step.split,
                              Step.fitNB, Step.fitSVM],
                    output := [], err := some e, inter := none }
                | .ok svm => successRun csv processed X y sp nb svm

/-- Placeholder artifacts, only used as the default of `interOf`. -/
def defaultInter : Inter := ⟨⟨[], []⟩, [], [], [], [], [], [], [], [], []⟩

/-- The artifacts of a run, defaulting to empty ones on a failed run. -/
def interOf (r : RunResult) : Inter := r.inter.getD defaultInter

/-- The number of numeric values a run prints. -/
def numbersPrinted (r : RunResult) : Nat :=
  (r.output.map (fun line => line.countP PArg.isNum)).sum

/-- The processed comment column as a total function: NaN cells clean to
the empty string (they would in fact raise; see `preprocess_text`). -/
def valueClean : Value → String
  | .str s => preprocessString s
  | .nan => ""

/-- The cleaned comment column of a data frame, as a total function. -/
def processedComments (csv : CSV) : List String :=
  (colValues csv "Comment").map valueClean

/-- A well-formed five-row dataset used to witness the success theorems. -/
def demoCSV : CSV :=
  ⟨["Comment", "Emotion"],
   [[Value.str "maple syrup tastes sweet", Value.str "joy"],
    [Value.str "gravel rattles loudly", Value.str "anger"],
    [Value.str "maple trees grow tall", Value.str "joy"],
    [Value.str "alarms ringing loudly annoy", Value.str "anger"],
    [Value.str "syrup pours slowly", Value.str "joy"]]⟩

/-- A CSV with a text column and a label column whose names differ from
`Comment`/`Emotion`; the pipeline rejects it. -/
def badNamesCSV : CSV :=
  ⟨["Text", "Label"],
   [[Value.str "maple syrup tastes sweet", Value.str "joy"],
    [Value.str "gravel rattles loudly", Value.str "anger"],
    [Value.str "syrup pours slowly", Value.str "joy"]]⟩

/-- A CSV whose comment column contains a NaN (malformed) cell. -/
def nanCellCSV : CSV :=
  ⟨["Comment", "Emotion"],
   [[Value.str "maple syrup tastes sweet", Value.str "joy"],
    [Value.nan, Value.str "anger"],
    [Value.str "syrup pours slowly", Value.str "joy"]]⟩

end NLP

namespace NLP

/-! ### Helper lemmas -/

theorem length_insertLe (le : α → α → Bool) (x : α) :
    ∀ l : List α, (insertLe le x l).length = l.length + 1
  | [] => rfl
  | y :: ys => by
    simp only [insertLe]
    split
    · rfl
    · simp [length_insertLe le x ys]

theorem length_sortLe (le : α → α → Bool) : ∀ l : List α, (sortLe le l).length = l.length
  | [] => rfl
  | x :: xs => by simp [sortLe, length_insertLe, length_sortLe le xs]

theorem length_permute (seed n : Nat) : (permute seed n).length = n := by
  simp [permute, length_sortLe]

theorem ceil_fifth (n : Nat) : Nat.ceil (((1 : ℚ)/5) * (n : ℚ)) = (n + 4) / 5 := by
  have h5 : (0 : ℚ) < 5 := by norm_num
  rw [show ((1 : ℚ)/5) * (n : ℚ) = (n : ℚ) / 5 by ring]
  apply le_antisymm
  · rw [Nat.ceil_le, div_le_iff₀ h5]
    have hx : n ≤ ((n + 4) / 5) * 5 := by omega
    exact_mod_cast hx
  · have h1 : (n : ℚ) / 5 ≤ (Nat.ceil ((n : ℚ) / 5) : ℚ) := Nat.le_ceil _
    rw [div_le_iff₀ h5] at h1
    have h2 : n ≤ Nat.ceil ((n : ℚ) / 5) * 5 := by exact_mod_cast h1
    omega

theorem mapE_ok_length {f : α → Except PyError β} :
    ∀ {l : List α} {l' : List β}, mapE f l = Except.ok l' → l'.length = l.length
  | [], l', h => by
    simp only [mapE] at h
    cases h
    rfl
  | a :: as, l', h => by
    simp only [mapE] at h
    cases hf : f a with
    | error e => rw [hf] at h; cases h
    | ok b =>
      rw [hf] at h
      cases hm : mapE f as with
      | error e => rw [hm] at h; cases h
      | ok bs =>
        rw [hm] at h
        cases h
        simp [mapE_ok_length hm]

theorem mapE_error_of_mem {f : α → Except PyError β} {l : List α} {v : α} {e : PyError}
    (hv : v ∈ l) (he : f v = Except.error e) : ∃ e', mapE f l = Except.error e' := by
  induction l with
  | nil => cases hv
  | cons a as ih =>
    cases hf : f a with
    | error e2 => exact ⟨e2, by simp [mapE, hf]⟩
    | ok b =>
      rcases List.mem_cons.mp hv with rfl | hmem
      · rw [hf] at he; cases he
      · rcases ih hmem with ⟨e', h'⟩
        exact ⟨e', by simp [mapE, hf, h']⟩

theorem mapE_preprocess_ok : ∀ {l : List Value}, (∀ v ∈ l, v.isStr = true) →
    mapE preprocess_text l = Except.ok (l.map valueClean)
  | [], _ => rfl
  | a :: as, h => by
    have ha := h a (List.mem_cons_self a as)
    cases a with
    | nan => simp [Value.isStr] at ha
    | str s =>
      have hrest := mapE_preprocess_ok (fun v hv => h v (List.mem_cons_of_mem _ hv))
      simp [mapE, preprocess_text, hrest, valueClean]

theorem getCol_ok {csv : CSV} {name : String} {col : List Value}
    (h : getCol csv name = Except.ok col) :
    csv.header.contains name = true ∧ col = colValues csv name := by
  by_cases hc : csv.header.contains name = true
  · rw [getCol, if_pos hc] at h
    exact ⟨hc, (Except.ok.inj h).symm⟩
  · rw [getCol, if_neg hc] at h
    cases h

theorem colValues_length {csv : CSV} {name : String}
    (h : csv.header.contains name = true) :
    (colValues csv name).length = csv.rows.length := by
  rw [colValues, if_pos h, List.length_map]

theorem fit_transform_ok {docs : List String} {X : List (List Nat)}
    (h : fit_transform docs = Except.ok X) :
    buildVocab docs ≠ [] ∧ X = docs.map (countsRow (buildVocab docs)) := by
  by_cases hv : buildVocab docs = []
  · simp only [fit_transform] at h
    rw [if_pos hv] at h
    cases h
  · simp only [fit_transform] at h
    rw [if_neg hv] at h
    exact ⟨hv, (Except.ok.inj h).symm⟩

theorem buildVocab_length (docs : List String) : (buildVocab docs).length ≤ 500 := by
  rw [buildVocab, length_sortLe]
  exact List.length_take_le _ _

theorem ceilMul_fifth (n : Nat) : ceilMul (mkRat 1 5) n = (n + 4) / 5 := by
  have h1 : (mkRat 1 5).num = 1 := by decide
  have h2 : (mkRat 1 5).den = 5 := by decide
  rw [ceilMul, h1, h2]
  norm_num

theorem tts_ok_shapes {X : List (List Nat)} {y : List Value} {t : ℚ} {rs : Option Nat}
    {env : Nat} {sp : SplitResult} (h : train_test_split X y t rs env = Except.ok sp) :
    X.length = y.length ∧
    X.length - ceilMul t X.length ≠ 0 ∧
    sp.X_test.length = min (ceilMul t X.length) X.length ∧
    sp.X_train.length = X.length - ceilMul t X.length ∧
    sp.y_test.length = sp.X_test.length ∧
    sp.y_train.length = sp.X_train.length := by
  simp only [train_test_split] at h
  split at h
  · cases h
  · rename_i h1
    split at h
    · cases h
    · rename_i h2
      cases h
      refine ⟨by omega, h2, ?_, ?_, ?_, ?_⟩ <;>
        simp [List.length_take, List.length_drop, length_permute]

theorem nbFit_ok {Xtr : List (List Nat)} {ytr : List Value} {nb : NBModel}
    (h : nbFit Xtr ytr = Except.ok nb) : Xtr ≠ [] := by
  intro hx
  rw [nbFit, if_pos hx] at h
  cases h

theorem svmFit_ok {Xtr : List (List Nat)} {ytr : List Value} {svm : SVMModel}
    (h : svmFit Xtr ytr = Except.ok svm) : Xtr ≠ [] := by
  intro hx
  rw [svmFit, if_pos hx] at h
  cases h

theorem run_some_ok {csv : CSV} {env : Nat} (h : (run (some csv) env).err = none) :
    ∃ col processed X y sp nb svm,
      getCol csv "Comment" = Except.ok col ∧
      mapE preprocess_text col = Except.ok processed ∧
      fit_transform processed = Except.ok X ∧
      getCol csv "Emotion" = Except.ok y ∧
      train_test_split X y (mkRat 1 5) (some 42) env = Except.ok sp ∧
      nbFit sp.X_train sp.y_train = Except.ok nb ∧
      svmFit sp.X_train sp.y_train = Except.ok svm ∧
      run (some csv) env = successRun csv processed X y sp nb svm := by
  rw [run] at h
  simp only [read_csv] at h
  split at h
  · simp at h
  · rename_i col hc
    split at h
    · simp at h
    · rename_i processed hm
      split at h
      · simp at h
      · rename_i X hf
        split at h
        · simp at h
        · rename_i y hy
          split at h
          · simp at h
          · rename_i sp hs
            split at h
            · simp at h
            · rename_i nb hnb
              split at h
              · simp at h
              · rename_i svm hsvm
                refine ⟨col, processed, X, y, sp, nb, svm, hc, hm, hf, hy, hs, hnb, hsvm, ?_⟩
                rw [run]
                simp only [read_csv, hc, hm, hf, hy, hs, hnb, hsvm]

end NLP

namespace NLP

/-! ### Character-level lemmas for the preprocessing claims -/

theorem uint32_le_iff {a b : UInt32} : a ≤ b ↔ a.toNat ≤ b.toNat := Iff.rfl

theorem char_toNat_ofNat {n : Nat} (h : n.isValidChar) : (Char.ofNat n).toNat = n := by
  simp [Char.ofNat, h, Char.ofNatAux, Char.toNat, UInt32.toNat]

theorem isUpper_eq_decide (c : Char) :
    c.isUpper = (decide (65 ≤ c.toNat) && decide (c.toNat ≤ 90)) := by
  rw [Char.isUpper, Bool.eq_iff_iff]
  simp only [Bool.and_eq_true, decide_eq_true_eq, ge_iff_le]
  constructor
  · rintro ⟨ha, hb⟩
    exact ⟨uint32_le_iff.mp ha, uint32_le_iff.mp hb⟩
  · rintro ⟨ha, hb⟩
    exact ⟨uint32_le_iff.mpr ha, uint32_le_iff.mpr hb⟩

theorem toLower_not_upper (c : Char) : (Char.toLower c).isUpper = false := by
  simp only [Char.toLower]
  split
  · rename_i h
    have hv : Nat.isValidChar (Char.toNat c + 32) := Or.inl (by omega)
    rw [isUpper_eq_decide, char_toNat_ofNat hv]
    have h2 : ¬ (Char.toNat c + 32 ≤ 90) := by omega
    simp [h2]
  · rename_i h
    rw [isUpper_eq_decide]
    by_cases h1 : 65 ≤ Char.toNat c
    · have h2 : ¬ (Char.toNat c ≤ 90) := fun hc => h ⟨h1, hc⟩
      simp [h2]
    · simp [h1]

theorem pyLower_not_upper {l : List Char} {c : Char} (hc : c ∈ pyLower l) :
    c.isUpper = false := by
  rw [pyLower] at hc
  rcases List.mem_map.mp hc with ⟨d, _, rfl⟩
  exact toLower_not_upper d

/-! ### Split/join lemmas for the preprocessing claims -/

theorem pySplitAux_chars : ∀ (l cur : List Char), ∀ w ∈ pySplitAux l cur, ∀ c ∈ w, c ∈ l ∨ c ∈ cur
  | [], cur => by
    intro w hw c hc
    simp only [pySplitAux] at hw
    split at hw
    · cases hw
    · rcases List.mem_singleton.mp hw with rfl
      exact Or.inr (List.mem_reverse.mp hc)
  | c0 :: rest, cur => by
    intro w hw c hc
    simp only [pySplitAux] at hw
    split at hw
    · split at hw
      · rcases pySplitAux_chars rest [] w hw c hc with h | h
        · exact Or.inl (List.mem_cons_of_mem _ h)
        · cases h
      · rcases List.mem_cons.mp hw with rfl | hw2
        · exact Or.inr (List.mem_reverse.mp hc)
        · rcases pySplitAux_chars rest [] w hw2 c hc with h | h
          · exact Or.inl (List.mem_cons_of_mem _ h)
          · cases h
    · rcases pySplitAux_chars rest (c0 :: cur) w hw c hc with h | h
      · exact Or.inl (List.mem_cons_of_mem _ h)
      · rcases List.mem_cons.mp h with rfl | h2
        · exact Or.inl (List.mem_cons_self _ _)
        · exact Or.inr h2

theorem pySplitAux_wf : ∀ (l cur : List Char), (∀ c ∈ cur, isSpaceChar c = false) →
    ∀ w ∈ pySplitAux l cur, w ≠ [] ∧ ∀ c ∈ w, isSpaceChar c = false
  | [], cur => by
    intro hcur w hw
    simp only [pySplitAux] at hw
    split at hw
    · cases hw
    · rename_i hne
      rcases List.mem_singleton.mp hw with rfl
      refine ⟨by simpa using hne, ?_⟩
      intro c hc
      exact hcur c (List.mem_reverse.mp hc)
  | c0 :: rest, cur => by
    intro hcur w hw
    simp only [pySplitAux] at hw
    split at hw
    · rename_i hsp
      split at hw
      · exact pySplitAux_wf rest [] (by simp) w hw
      · rename_i hne
        rcases List.mem_cons.mp hw with rfl | hw2
        · refine ⟨by simpa using hne, ?_⟩
          intro c hc
          exact hcur c (List.mem_reverse.mp hc)
        · exact pySplitAux_wf rest [] (by simp) w hw2
    · rename_i hsp
      refine pySplitAux_wf rest (c0 :: cur) ?_ w hw
      intro c hc
      rcases List.mem_cons.mp hc with rfl | h2
      · simpa using hsp
      · exact hcur c h2

theorem joinSpaces_chars : ∀ (ws : List (List Char)) (c : Char), c ∈ joinSpaces ws →
    c = ' ' ∨ ∃ w ∈ ws, c ∈ w
  | [] => by
    intro c hc
    cases hc
  | [w] => by
    intro c hc
    simp only [joinSpaces] at hc
    exact Or.inr ⟨w, List.mem_singleton_self w, hc⟩
  | w :: w2 :: ws => by
    intro c hc
    simp only [joinSpaces] at hc
    rcases List.mem_append.mp hc with h | h
    · exact Or.inr ⟨w, List.mem_cons_self _ _, h⟩
    · rcases List.mem_cons.mp h with rfl | h2
      · exact Or.inl rfl
      · rcases joinSpaces_chars (w2 :: ws) c h2 with h3 | ⟨w3, hw3, hc3⟩
        · exact Or.inl h3
        · exact Or.inr ⟨w3, List.mem_cons_of_mem _ hw3, hc3⟩

theorem pySplitAux_append : ∀ (w : List Char), (∀ c ∈ w, isSpaceChar c = false) →
    ∀ (rest cur : List Char), pySplitAux (w ++ rest) cur = pySplitAux rest (w.reverse ++ cur)
  | [] => by
    intro _ rest cur
    simp
  | c0 :: w => by
    intro hw rest cur
    have h0 : isSpaceChar c0 = false := hw c0 (List.mem_cons_self _ _)
    simp only [List.cons_append, pySplitAux, h0, Bool.false_eq_true, if_false, List.append_eq]
    rw [pySplitAux_append w (fun c hc => hw c (List.mem_cons_of_mem _ hc)) rest (c0 :: cur)]
    simp

theorem pySplit_joinSpaces : ∀ (ws : List (List Char)),
    (∀ w ∈ ws, w ≠ [] ∧ ∀ c ∈ w, isSpaceChar c = false) →
    pySplit (joinSpaces ws) = ws
  | [] => by
    intro _
    rfl
  | [w] => by
    intro h
    obtain ⟨hne, hsp⟩ := h w (List.mem_singleton_self w)
    show pySplitAux (joinSpaces [w]) [] = [w]
    simp only [joinSpaces]
    have h1 : pySplitAux (w ++ []) [] = pySplitAux [] (w.reverse ++ []) :=
      pySplitAux_append w hsp [] []
    rw [List.append_nil, List.append_nil] at h1
    rw [h1]
    simp only [pySplitAux]
    rw [if_neg (by simpa using hne)]
    simp
  | w :: w2 :: ws => by
    intro h
    obtain ⟨hne, hsp⟩ := h w (List.mem_cons_self _ _)
    have htail : ∀ x ∈ w2 :: ws, x ≠ [] ∧ ∀ c ∈ x, isSpaceChar c = false :=
      fun x hx => h x (List.mem_cons_of_mem _ hx)
    show pySplitAux (joinSpaces (w :: w2 :: ws)) [] = _
    simp only [joinSpaces]
    rw [pySplitAux_append w hsp (' ' :: joinSpaces (w2 :: ws)) []]
    rw [List.append_nil]
    simp only [pySplitAux]
    rw [if_pos (show isSpaceChar ' ' = true from rfl)]
    rw [if_neg (by simpa using hne)]
    rw [List.reverse_reverse]
    rw [show pySplitAux (joinSpaces (w2 :: ws)) [] = pySplit (joinSpaces (w2 :: ws)) from rfl]
    rw [pySplit_joinSpaces (w2 :: ws) htail]

theorem cleanTokens_wf (s : String) :
    ∀ w ∈ cleanTokens s, w ≠ [] ∧ ∀ c ∈ w, isSpaceChar c = false := by
  intro w hw
  have hw2 : w ∈ pySplit (removePunctuation (pyLower s.data)) := (List.mem_filter.mp hw).1
  exact pySplitAux_wf _ [] (by simp) w hw2

end NLP

namespace NLP

/-! ### Determinism helper -/

theorem tts_seed (X : List (List Nat)) (y : List Value) (t : ℚ) (s : Nat) (env : Nat) :
    train_test_split X y t (some s) env = train_test_split X y t (some s) 0 := rfl

/-! ### The claims -/

/-- C1: whenever the pipeline completes, its step trace is exactly the fixed
sequence load, clean, vectorize, split, fit NB, fit SVM, score NB, score
SVM — no step repeated, skipped, retried, or conditioned on another step's
result — and projecting the trace onto the specification's phases yields
exactly clean, vectorize, fit (NB before SVM), score, in this order. -/
theorem c1_fixed_pipeline (fs : Option CSV) (env : Nat)
    (h : (run fs env).err = none) :
    (run fs env).trace = fullTrace ∧
    ((run fs env).trace.filterMap phaseOf).dedup =
      [Phase.clean, Phase.vectorize, Phase.fit, Phase.score] := by
  cases fs with
  | none => simp [run, read_csv] at h
  | some csv =>
    obtain ⟨col, processed, X, y, sp, nb, svm, -, -, -, -, -, -, -, heq⟩ := run_some_ok h
    rw [heq]
    exact ⟨rfl, rfl⟩

/-- C1 witness: the five-row demo dataset completes and runs the eight
steps in the fixed order. -/
theorem c1_witness :
    (run (some demoCSV) 0).trace = fullTrace ∧
    ((run (some demoCSV) 0).trace.filterMap phaseOf).dedup =
      [Phase.clean, Phase.vectorize, Phase.fit, Phase.score] :=
  c1_fixed_pipeline (some demoCSV) 0 (by decide)

/-- C2: on a successful run the console output is exactly two lines, the
Naive Bayes line first and the SVM line second, each reporting that
model's accuracy and weighted F1 computed against the test labels. -/
theorem c2_two_output_lines (fs : Option CSV) (env : Nat)
    (h : (run fs env).err = none) :
    (run fs env).inter.isSome = true ∧
    (run fs env).output =
      [nbLine (accuracy_score (interOf (run fs env)).yte (interOf (run fs env)).nbPred)
              (f1_score_weighted (interOf (run fs env)).yte (interOf (run fs env)).nbPred),
       svmLine (accuracy_score (interOf (run fs env)).yte (interOf (run fs env)).svmPred)
               (f1_score_weighted (interOf (run fs env)).yte (interOf (run fs env)).svmPred)] ∧
    (run fs env).output.length = 2 := by
  cases fs with
  | none => simp [run, read_csv] at h
  | some csv =>
    obtain ⟨col, processed, X, y, sp, nb, svm, -, -, -, -, -, -, -, heq⟩ := run_some_ok h
    rw [heq]
    exact ⟨rfl, rfl, rfl⟩

/-- C2 witness at the five-row demo dataset. -/
theorem c2_witness :
    (run (some demoCSV) 0).inter.isSome = true ∧
    (run (some demoCSV) 0).output =
      [nbLine (accuracy_score (interOf (run (some demoCSV) 0)).yte
                (interOf (run (some demoCSV) 0)).nbPred)
              (f1_score_weighted (interOf (run (some demoCSV) 0)).yte
                (interOf (run (some demoCSV) 0)).nbPred),
       svmLine (accuracy_score (interOf (run (some demoCSV) 0)).yte
                (interOf (run (some demoCSV) 0)).svmPred)
               (f1_score_weighted (interOf (run (some demoCSV) 0)).yte
                (interOf (run (some demoCSV) 0)).svmPred)] ∧
    (run (some demoCSV) 0).output.length = 2 :=
  c2_two_output_lines (some demoCSV) 0 (by decide)

/-- C3 counterexample: a CSV with exactly two columns — a nonempty
free-text string column and a label column — named `Text`/`Label` instead
of `Comment`/`Emotion` makes the pipeline abort with `KeyError` and print
nothing, so the claim's "no further condition on the input (such as
specific column names) is required" is false. -/
theorem c3_counterexample :
    badNamesCSV.header.length = 2 ∧
    (colValues badNamesCSV "Text").all Value.isStr = true ∧
    colValues badNamesCSV "Text" ≠ [] ∧
    (run (some badNamesCSV) 0).err = some (PyError.keyError "Comment") ∧
    (run (some badNamesCSV) 0).output = [] := by
  refine ⟨rfl, rfl, by decide, by decide, rfl⟩

/-- C3 as amended: specific column names are required after all — whenever
the pipeline runs to completion, the input CSV has a column named exactly
`Comment` and a column named exactly `Emotion`; the counterexample above
shows a two-column free-text/label CSV under any other names aborting with
`KeyError` before anything is printed. -/
theorem c3_amended (csv : CSV) (env : Nat)
    (h : (run (some csv) env).err = none) :
    csv.header.contains "Comment" = true ∧ csv.header.contains "Emotion" = true := by
  obtain ⟨col, processed, X, y, sp, nb, svm, hc, hm, hf, hy, hs, hnb, hsvm, heq⟩ :=
    run_some_ok h
  exact ⟨(getCol_ok hc).1, (getCol_ok hy).1⟩

/-- C3 witness: the five-row demo dataset completes, and it does carry the
required `Comment` and `Emotion` columns. -/
theorem c3_witness :
    demoCSV.header.contains "Comment" = true ∧
    demoCSV.header.contains "Emotion" = true :=
  c3_amended demoCSV 0 (by decide)

/-- C4: a missing input file aborts the run with `FileNotFoundError` before
anything is printed, and a non-string (NaN) comment cell aborts the run
with the preprocessing exception before anything is printed; nothing is
caught or retried. -/
theorem c4_unhandled_failures (env : Nat) (csv : CSV)
    (hnan : Value.nan ∈ colValues csv "Comment") :
    ((run none env).err = some PyError.fileNotFoundError ∧ (run none env).output = []) ∧
    ((run (some csv) env).err ≠ none ∧ (run (some csv) env).output = []) := by
  refine ⟨⟨rfl, rfl⟩, ?_⟩
  by_cases h1 : csv.header.contains "Comment" = true
  · have hc : getCol csv "Comment" = Except.ok (colValues csv "Comment") := by
      rw [getCol, if_pos h1]
    obtain ⟨e', he'⟩ := mapE_error_of_mem hnan
      (rfl : preprocess_text Value.nan = Except.error PyError.attributeError)
    rw [run]
    simp only [read_csv, hc, he']
    simp
  · have hc : getCol csv "Comment" = Except.error (PyError.keyError "Comment") := by
      rw [getCol, if_neg h1]
    rw [run]
    simp only [read_csv, hc]
    simp

/-- C4 witness: the missing file and the dataset with a NaN comment cell. -/
theorem c4_witness :
    ((run none 0).err = some PyError.fileNotFoundError ∧ (run none 0).output = []) ∧
    ((run (some nanCellCSV) 0).err ≠ none ∧ (run (some nanCellCSV) 0).output = []) :=
  c4_unhandled_failures 0 nanCellCSV (by decide)

/-- C5: in every completed run, the TF-IDF feature matrix `X` has exactly
one row per row of the loaded dataset. -/
theorem c5_row_counts (fs : Option CSV) (env : Nat)
    (h : (run fs env).err = none) :
    (run fs env).inter.isSome = true ∧
    (interOf (run fs env)).X.length = (interOf (run fs env)).ds.rows.length := by
  cases fs with
  | none => simp [run, read_csv] at h
  | some csv =>
    obtain ⟨col, processed, X, y, sp, nb, svm, hc, hm, hf, hy, hs, hnb, hsvm, heq⟩ :=
      run_some_ok h
    rw [heq]
    refine ⟨rfl, ?_⟩
    show X.length = csv.rows.length
    obtain ⟨hcont, hcol⟩ := getCol_ok hc
    obtain ⟨-, hXeq⟩ := fit_transform_ok hf
    rw [hXeq, List.length_map, mapE_ok_length hm, hcol, colValues_length hcont]

/-- C5 witness at the five-row demo dataset. -/
theorem c5_witness :
    (run (some demoCSV) 0).inter.isSome = true ∧
    (interOf (run (some demoCSV) 0)).X.length =
      (interOf (run (some demoCSV) 0)).ds.rows.length :=
  c5_row_counts (some demoCSV) 0 (by decide)

/-- C6: in every completed run, each model's prediction vector has exactly
one label per test row, and the test split holds `ceil(n/5)` of the `n`
feature rows — the 20% side of the 80/20 split. -/
theorem c6_prediction_counts (fs : Option CSV) (env : Nat)
    (h : (run fs env).err = none) :
    (run fs env).inter.isSome = true ∧
    (interOf (run fs env)).nbPred.length = (interOf (run fs env)).Xte.length ∧
    (interOf (run fs env)).svmPred.length = (interOf (run fs env)).Xte.length ∧
    (interOf (run fs env)).Xte.length =
      Nat.ceil (((1 : ℚ)/5) * ((interOf (run fs env)).X.length : ℚ)) := by
  cases fs with
  | none => simp [run, read_csv] at h
  | some csv =>
    obtain ⟨col, processed, X, y, sp, nb, svm, hc, hm, hf, hy, hs, hnb, hsvm, heq⟩ :=
      run_some_ok h
    rw [heq]
    obtain ⟨-, hne0, htelen, -, -, -⟩ := tts_ok_shapes hs
    refine ⟨rfl, ?_, ?_, ?_⟩
    · show (nbPredict nb sp.X_test).length = sp.X_test.length
      rw [nbPredict, List.length_map]
    · show (svmPredict svm sp.X_test).length = sp.X_test.length
      rw [svmPredict, List.length_map]
    · show sp.X_test.length = Nat.ceil (((1 : ℚ)/5) * (X.length : ℚ))
      rw [htelen, ceilMul_fifth, ceil_fifth]
      exact min_eq_left (by omega)

/-- C6 witness at the five-row demo dataset. -/
theorem c6_witness :
    (run (some demoCSV) 0).inter.isSome = true ∧
    (interOf (run (some demoCSV) 0)).nbPred.length =
      (interOf (run (some demoCSV) 0)).Xte.length ∧
    (interOf (run (some demoCSV) 0)).svmPred.length =
      (interOf (run (some demoCSV) 0)).Xte.length ∧
    (interOf (run (some demoCSV) 0)).Xte.length =
      Nat.ceil (((1 : ℚ)/5) * ((interOf (run (some demoCSV) 0)).X.length : ℚ)) :=
  c6_prediction_counts (some demoCSV) 0 (by decide)

/-- C7 counterexample: a successful run prints four numeric values, not
two — accuracy and weighted F1 for each of the two models — so "print two
numbers" is false of the code. -/
theorem c7_counterexample :
    (run (some demoCSV) 0).err = none ∧
    numbersPrinted (run (some demoCSV) 0) = 4 := by
  exact ⟨by decide, by decide⟩

/-- C7 as amended: the observable behaviour of a completed run is the fixed
step sequence — one CSV load followed by the fixed library calls in
order — and two printed lines containing four numbers in total. -/
theorem c7_amended (fs : Option CSV) (env : Nat)
    (h : (run fs env).err = none) :
    (run fs env).trace = fullTrace ∧
    (run fs env).output.length = 2 ∧
    numbersPrinted (run fs env) = 4 := by
  cases fs with
  | none => simp [run, read_csv] at h
  | some csv =>
    obtain ⟨col, processed, X, y, sp, nb, svm, -, -, -, -, -, -, -, heq⟩ := run_some_ok h
    rw [heq]
    exact ⟨rfl, rfl, rfl⟩

/-- C7 witness at the five-row demo dataset. -/
theorem c7_witness :
    (run (some demoCSV) 0).trace = fullTrace ∧
    (run (some demoCSV) 0).output.length = 2 ∧
    numbersPrinted (run (some demoCSV) 0) = 4 :=
  c7_amended (some demoCSV) 0 (by decide)

/-- C8: `preprocess_text` on a string is a pure function (it is embedded as
a Lean function) whose result contains no uppercase letter and no
punctuation character, splits on whitespace into exactly the
stop-word-free token list of the input, none of whose tokens is a stop
word, and is those tokens joined by single spaces in original order. -/
theorem c8_preprocess_invariants (s : String) :
    (preprocessString s).data.all (fun c => !c.isUpper) = true ∧
    (preprocessString s).data.all (fun c => !(punctuationChars.contains c)) = true ∧
    pySplit (preprocessString s).data = cleanTokens s ∧
    (cleanTokens s).all (fun w => !(isStopWord w)) = true ∧
    preprocessString s = String.mk (joinSpaces (cleanTokens s)) := by
  have hdata : (preprocessString s).data = joinSpaces (cleanTokens s) := rfl
  have hprov : ∀ c ∈ joinSpaces (cleanTokens s),
      c = ' ' ∨ c ∈ removePunctuation (pyLower s.data) := by
    intro c hc
    rcases joinSpaces_chars _ c hc with h | ⟨w, hw, hcw⟩
    · exact Or.inl h
    · have hw2 : w ∈ pySplit (removePunctuation (pyLower s.data)) := (List.mem_filter.mp hw).1
      rcases pySplitAux_chars _ [] w hw2 c hcw with h2 | h2
      · exact Or.inr h2
      · cases h2
  refine ⟨?_, ?_, ?_, ?_, rfl⟩
  · rw [List.all_eq_true]
    intro c hc
    rw [hdata] at hc
    rcases hprov c hc with rfl | h2
    · decide
    · have h3 : c ∈ pyLower s.data := List.mem_of_mem_filter h2
      simp [pyLower_not_upper h3]
  · rw [List.all_eq_true]
    intro c hc
    rw [hdata] at hc
    rcases hprov c hc with rfl | h2
    · decide
    · have h3 := List.of_mem_filter h2
      simpa using h3
  · rw [hdata]
    exact pySplit_joinSpaces (cleanTokens s) (cleanTokens_wf s)
  · rw [List.all_eq_true]
    intro w hw
    rw [cleanTokens] at hw
    exact (List.mem_filter.mp hw).2

/-- C9: every feature row of a completed run has at most 500 entries: the
vectorizer's vocabulary is capped by `max_features=500`. -/
theorem c9_max_features (fs : Option CSV) (env : Nat)
    (h : (run fs env).err = none) :
    (run fs env).inter.isSome = true ∧
    (interOf (run fs env)).X.all (fun row => decide (row.length ≤ 500)) = true := by
  cases fs with
  | none => simp [run, read_csv] at h
  | some csv =>
    obtain ⟨col, processed, X, y, sp, nb, svm, hc, hm, hf, hy, hs, hnb, hsvm, heq⟩ :=
      run_some_ok h
    rw [heq]
    refine ⟨rfl, ?_⟩
    show X.all (fun row => decide (row.length ≤ 500)) = true
    obtain ⟨-, hXeq⟩ := fit_transform_ok hf
    rw [hXeq, List.all_eq_true]
    intro row hrow
    rcases List.mem_map.mp hrow with ⟨doc, -, rfl⟩
    rw [decide_eq_true_eq, countsRow, List.length_map]
    exact buildVocab_length _

/-- C9 witness at the five-row demo dataset. -/
theorem c9_witness :
    (run (some demoCSV) 0).inter.isSome = true ∧
    (interOf (run (some demoCSV) 0)).X.all (fun row => decide (row.length ≤ 500)) = true :=
  c9_max_features (some demoCSV) 0 (by decide)

/-- C10: the run is a deterministic function of the input file alone:
`random_state=42` overrides the ambient numpy seed, so two executions on
the same CSV contents produce identical splits, predictions and printed
metrics — the whole `RunResult` coincides. -/
theorem c10_deterministic (fs : Option CSV) (e1 e2 : Nat) :
    run fs e1 = run fs e2 := by
  cases fs with
  | none => rfl
  | some csv => simp only [run, read_csv, tts_seed]

end NLP
